import Mathlib

set_option maxRecDepth 16384

/-
Verification development for the CredentialShield secret verification and
risk classification engine.

The Python sources under backend/app/services are embedded shallowly:
  * character-level helpers model the Python string primitives they use
    (str.strip, str.lower, str.split, str.replace, substring tests, the
    specific regular expressions of secret_verifier.extract_commands);
  * external effects (the OpenAI calls, the subprocess, the catalog file)
    are injected as oracle functions, so the pure decision logic of the
    source is exercised for every possible oracle behaviour.
-/

namespace CredentialShield

/- Python string primitives, modelled at the character-list level. -/

/-- Characters kept by the regular expression character class [a-z0-9]
used by normalize after lowercasing. -/
def isLowerAlnum (c : Char) : Bool :=
  (('a' ≤ c && c ≤ 'z') || ('0' ≤ c && c ≤ '9'))

/-- Python str.strip whitespace: space, tab, newline, carriage return,
vertical tab, form feed. -/
def isPySpace (c : Char) : Bool :=
  c == ' ' || c == '\t' || c == '\n' || c == '\r' ||
  c == Char.ofNat 11 || c == Char.ofNat 12

/-- Python str.strip on a character list. -/
def pyStripL (l : List Char) : List Char :=
  ((l.dropWhile isPySpace).reverse.dropWhile isPySpace).reverse

/-- Index of the first occurrence of pat in l, if any (Python str.find). -/
def findPat (pat : List Char) : List Char → Option Nat
  | [] => if pat.isEmpty then some 0 else none
  | c :: rest =>
    if pat.isPrefixOf (c :: rest) then some 0
    else (findPat pat rest).map (· + 1)

/-- Python substring test `pat in l`. -/
def pyInL (pat l : List Char) : Bool := (findPat pat l).isSome

/-- Python s.split(sep, 1): the pieces before and after the first
occurrence of sep, or none when sep does not occur. -/
def splitFirst (sep l : List Char) : Option (List Char × List Char) :=
  (findPat sep l).map (fun i => (l.take i, l.drop (i + sep.length)))

/-- Worker for pySplit; the fuel is an upper bound on the number of
separator occurrences, so it never runs out on the initial call. -/
def pySplitAux (sep : List Char) : Nat → List Char → List (List Char)
  | 0, l => [l]
  | Nat.succ fuel, l =>
    match splitFirst sep l with
    | none => [l]
    | some (pre, post) => pre :: pySplitAux sep fuel post

/-- Python s.split(sep) for a non-empty separator (the source never splits
on an empty separator, which Python rejects). -/
def pySplit (sep l : List Char) : List (List Char) :=
  if sep.isEmpty then [l] else pySplitAux sep (l.length + 1) l

/-- Worker for pyReplaceL; fuel bounds the number of scanned characters. -/
def pyReplaceAux (old new : List Char) : Nat → List Char → List Char
  | 0, l => l
  | Nat.succ fuel, l =>
    match l with
    | [] => []
    | c :: rest =>
      if old.isPrefixOf (c :: rest) then
        new ++ pyReplaceAux old new fuel ((c :: rest).drop old.length)
      else c :: pyReplaceAux old new fuel rest

/-- Python s.replace(old, new) for a non-empty old, replacing all
non-overlapping occurrences left to right (the source only replaces
non-empty placeholder strings). -/
def pyReplaceL (s old new : List Char) : List Char :=
  if old.isEmpty then s else pyReplaceAux old new s.length s

/-- Python str.splitlines: break at a line feed, a carriage return, or a
carriage return followed by a line feed; a trailing line break does not
produce a final empty line. -/
def pySplitlinesAux : List Char → List Char → List (List Char)
  | [], cur => if cur.isEmpty then [] else [cur.reverse]
  | '\r' :: '\n' :: rest, cur => cur.reverse :: pySplitlinesAux rest []
  | '\r' :: rest, cur => cur.reverse :: pySplitlinesAux rest []
  | '\n' :: rest, cur => cur.reverse :: pySplitlinesAux rest []
  | c :: rest, cur => pySplitlinesAux rest (c :: cur)

/-- Python str.splitlines. -/
def pySplitlines (l : List Char) : List (List Char) := pySplitlinesAux l []

/-- Python "\n".join. -/
def joinNL : List (List Char) → List Char
  | [] => []
  | [l] => l
  | l :: rest => l ++ '\n' :: joinNL rest

/- String-level wrappers used by the embedded source functions. -/

/-- Python str.lower (ASCII case mapping, which covers every string the
source compares: placeholders, markers, and catalog titles are ASCII). -/
def pyLower (s : String) : String := ⟨s.data.map Char.toLower⟩

/-- Python str.strip on a string. -/
def pyStrip (s : String) : String := ⟨pyStripL s.data⟩

/-- Python substring test `needle in hay` on strings. -/
def pyIn (needle hay : String) : Bool := pyInL needle.data hay.data

/-- Python slice s[:n]. -/
def pyTake (n : Nat) (s : String) : String := ⟨s.data.take n⟩

/- secret_verifier.normalize -/

/-- normalize on a character list: lowercase, then drop every character
outside [a-z0-9] (the re.sub with pattern [^a-z0-9]+ on s.lower()). -/
def normalizeL (l : List Char) : List Char :=
  (l.map Char.toLower).filter isLowerAlnum

/-- normalize from secret_verifier.py: remove all non-alphanumeric
characters and lowercase. -/
def normalize (s : String) : String := ⟨normalizeL s.data⟩

/- secret_verifier.extract_commands: title cleanup regular expressions -/

/-- Models re.sub with the markdown-link pattern (an opening bracket, one
or more characters that are not a closing bracket, a closing bracket, then
the rest of the line) replaced by the captured group, applied to a
single-line title (the input, a stripped first line of a section, contains
no line break, so the trailing dot-star reaches the end of the string).
When the bracket pair is empty the engine finds no match at that bracket
and the scan resumes one character later. -/
def subLinkL : List Char → List Char
  | [] => []
  | c :: rest =>
    if c == '[' then
      match findPat [']'] rest with
      | some i => if i == 0 then '[' :: subLinkL rest else rest.take i
      | none => '[' :: subLinkL rest
    else c :: subLinkL rest

/-- Decides whether rest has the shape mid ++ [closing paren] with no
closing paren inside mid, i.e. whether a parenthesised group opened just
before rest runs to the end of the string. -/
def parenTailMatch (rest : List Char) : Bool :=
  match rest.reverse with
  | [] => false
  | last :: before => last == ')' && before.all (fun c => !(c == ')'))

/-- Models re.sub removing a trailing parenthesised group: an opening
paren, any number of non-closing-paren characters, and a closing paren at
the end of the string, replaced by the empty string. -/
def subParenL : List Char → List Char
  | [] => []
  | c :: rest =>
    if c == '(' && parenTailMatch rest then [] else c :: subParenL rest

/-- The title computed from the first line of a catalog section:
strip, drop a markdown link wrapper, drop a trailing parenthesised
group, strip again. -/
def cleanTitle (l : List Char) : List Char :=
  pyStripL (subParenL (subLinkL (pyStripL l)))

/- secret_verifier.extract_commands: fenced code block extraction -/

/-- Length of the leading run of backticks. -/
def countTicks : List Char → Nat
  | '`' :: rest => countTicks rest + 1
  | _ => 0

/-- After a fence of f backticks, match lazily up to the first line feed,
then lazily up to a line feed followed by the same fence (the
backreference), returning the captured content and the text after the
match. Lazy quantifiers take the first line feed and then the first
closing occurrence, which is exactly this search. -/
def fenceMatchAt (f : Nat) (rest : List Char) : Option (List Char × List Char) :=
  match findPat ['\n'] rest with
  | none => none
  | some p1 =>
    match findPat ('\n' :: List.replicate f '`') (rest.drop (p1 + 1)) with
    | none => none
    | some q => some ((rest.drop (p1 + 1)).take q, (rest.drop (p1 + 1)).drop (q + 1 + f))

/-- The greedy three-or-more quantifier on the opening fence: try the
longest run of backticks first and back off down to three. -/
def tryFences (s : List Char) : Nat → Option (List Char × List Char)
  | 0 => none
  | 1 => none
  | 2 => none
  | (n + 3) =>
    match fenceMatchAt (n + 3) (s.drop (n + 3)) with
    | some r => some r
    | none => tryFences s (n + 2)

/-- Scan for the non-overlapping matches of the fenced-code-block pattern,
collecting the captured block contents in order; on failure at a position
the scan advances one character, as the regex engine does. -/
def scanFences : Nat → List Char → List (List Char)
  | 0, _ => []
  | Nat.succ fuel, s =>
    if 3 ≤ countTicks s then
      match tryFences s (countTicks s) with
      | some (content, rest) => content :: scanFences fuel rest
      | none =>
        match s with
        | [] => []
        | _ :: t => scanFences fuel t
    else
      match s with
      | [] => []
      | _ :: t => scanFences fuel t

/-- Case-insensitive startswith("curl"). -/
def lowerStartsCurl (l : List Char) : Bool :=
  "curl".data.isPrefixOf (l.map Char.toLower)

/-- Collect the curl lines of one fenced block: every line whose stripped,
lowercased text starts with curl contributes its stripped text. -/
def collectBlockLines (acc : List (List Char)) (blk : List Char) : List (List Char) :=
  (pySplitlines blk).foldl
    (fun a line => if lowerStartsCurl (pyStripL line) then a ++ [pyStripL line] else a) acc

/-- Collect the inline curl lines of a section body: the multiline,
case-insensitive pattern anchored at line start matches exactly the lines
that begin with curl and contain no carriage return; each match is
appended stripped, unless the stripped text was already collected. -/
def collectInline (acc : List (List Char)) (body : List Char) : List (List Char) :=
  ((pySplit ['\n'] body).filter
      (fun line => lowerStartsCurl line && line.all (fun c => !(c == '\r')))).foldl
    (fun a line => if a.contains (pyStripL line) then a else a ++ [pyStripL line]) acc

/-- Process one section produced by splitting the catalog on the header
marker: compute the cleaned title from the first line, test the
bidirectional normalized containment against the requested label, and on a
match collect the fenced-block curl lines followed by the inline curl
lines not already collected. -/
def processSection (wanted : List Char) (acc : List (List Char)) (sec : List Char) : List (List Char) :=
  match pySplitlines sec with
  | [] => acc
  | l0 :: restLines =>
    if (cleanTitle l0).isEmpty then acc
    else
      if pyInL (normalizeL (cleanTitle l0)) wanted || pyInL wanted (normalizeL (cleanTitle l0)) then
        collectInline
          ((scanFences ((joinNL restLines).length + 1) (joinNL restLines)).foldl collectBlockLines acc)
          (joinNL restLines)
      else acc

/-- extract_commands from secret_verifier.py: split the catalog text on
the section marker, and for every section whose normalized title is a
substring of the normalized requested type or vice versa, collect its curl
command templates. -/
def extract_commands (secret_type md_text : String) : List String :=
  ((pySplit ("## ".data) md_text.data).foldl
      (processSection (normalizeL secret_type.data)) []).map (fun l => ⟨l⟩)

/- Claim C1: the spec's concrete catalog example. -/

/-- The catalog of the spec's example: one section titled GitHub Token
holding one fenced code block with one curl template. -/
def ghCatalog : String :=
  "## GitHub Token\n```\ncurl -H \"Authorization: token $TOKEN\" https://api.github.com/user\n```"

/-- The single curl template of that catalog section. -/
def ghTemplate : String :=
  "curl -H \"Authorization: token $TOKEN\" https://api.github.com/user"

/- Api_Exposure_classifier.parse_secret_file: the evidence parser. -/

/-- One parsed evidence record: the evidence text, the derived file name,
and the URL context the line was seen under. -/
structure EvidenceRecord where
  evidence : String
  filename : String
  url : String
deriving Repr, DecidableEq, Inhabited

/-- Valid scheme per urllib.parse: a letter followed by letters, digits,
plus, minus or dot. -/
def isValidScheme (l : List Char) : Bool :=
  match l with
  | [] => false
  | c :: rest => c.isAlpha && rest.all (fun d => d.isAlphanum || d == '+' || d == '-' || d == '.')

/-- Strip a leading scheme and colon when the text before the first colon
is a valid scheme (urllib.parse.urlsplit). -/
def dropScheme (l : List Char) : List Char :=
  match splitFirst [':'] l with
  | some (pre, post) => if isValidScheme pre then post else l
  | none => l

/-- Strip a leading authority: after two slashes, everything up to the
next slash or question mark belongs to the network location
(urllib.parse.urlsplit). -/
def dropAuthority (l : List Char) : List Char :=
  if ("//".data).isPrefixOf l then
    match (l.drop 2).findIdx? (fun c => c == '/' || c == '?') with
    | some i => (l.drop 2).drop i
    | none => []
  else l

/-- Strip the query part: everything from the first question mark on. -/
def pathBeforeQuery (l : List Char) : List Char :=
  (splitFirst ['?'] l).map Prod.fst |>.getD l

/-- Models urllib.parse.urlparse(url).path: drop the fragment, drop a
valid scheme prefix, drop an authority introduced by two slashes up to the
next slash or question mark, and drop the query. -/
def urlparsePath (url : List Char) : List Char :=
  pathBeforeQuery
    (dropAuthority
      (dropScheme ((splitFirst ['#'] url).map Prod.fst |>.getD url)))

/-- Filename fallback derived from the current URL in parse_secret_file:
the basename of the parsed URL path, or Unknown when the path or the
basename is empty. -/
def urlFilename (url : List Char) : List Char :=
  if (urlparsePath url).isEmpty then "Unknown".data
  else
    if ((pySplit ['/'] (urlparsePath url)).getLastD []).isEmpty then "Unknown".data
    else (pySplit ['/'] (urlparsePath url)).getLastD []

/-- Reduce a raw filename segment to its basename: the text after the last
forward slash when one occurs, else after the last backslash when one
occurs, else the segment itself. -/
def basenameOf (fn : List Char) : List Char :=
  if fn.contains '/' then (pySplit ['/'] fn).getLastD []
  else if fn.contains '\\' then (pySplit ['\\'] fn).getLastD []
  else fn

/-- Builds the record for one matched evidence line, with the filename
derivation of parse_secret_file: the segment before the first colon
(reduced to its basename on either separator) when the evidence contains a
colon, else the basename of the current URL when one is known, else
Unknown. -/
def mkRecord (current_url evidence : List Char) : EvidenceRecord :=
  { evidence := ⟨evidence⟩,
    filename :=
      if evidence.contains ':' then
        ⟨basenameOf ((splitFirst [':'] evidence).map Prod.fst |>.getD evidence)⟩
      else if !(current_url == "Unknown".data) then ⟨urlFilename current_url⟩
      else "Unknown",
    url := ⟨current_url⟩ }

/-- Append one record to the insertion-ordered bucket map, creating the
bucket at the end on first use (collections.defaultdict(list)). -/
def bucketAppend (bs : List (String × List EvidenceRecord)) (k : String) (r : EvidenceRecord) :
    List (String × List EvidenceRecord) :=
  if bs.any (fun p => p.1 == k) then
    bs.map (fun p => if p.1 == k then (p.1, p.2 ++ [r]) else p)
  else bs ++ [(k, [r])]

/-- One iteration of the line loop of parse_secret_file: strip the raw
line; a URL line replaces the current URL context; otherwise a line
containing the separator is split at its first occurrence, both sides
trimmed, and one record is appended to the bucket named by the left-hand
side; any other line is skipped. -/
def parseStep (st : List Char × List (String × List EvidenceRecord)) (raw : List Char) :
    List Char × List (String × List EvidenceRecord) :=
  if ("[ + ] URL:".data).isPrefixOf (pyStripL raw) then
    (match splitFirst ("URL:".data) (pyStripL raw) with
     | some (_, post) => pyStripL post
     | none => "Unknown".data,
     st.2)
  else
    match splitFirst ("->".data) (pyStripL raw) with
    | none => st
    | some (lhs, rhs) =>
      (st.1, bucketAppend st.2 ⟨pyStripL lhs⟩ (mkRecord st.1 (pyStripL rhs)))

/-- parse_secret_file from Api_Exposure_classifier.py, over the text of
the dump file (file iteration yields the text split at line feeds; the
per-line strip of the source removes the line terminator either way). -/
def parse_secret_file (dump : String) : List (String × List EvidenceRecord) :=
  ((pySplit ['\n'] dump.data).foldl parseStep ("Unknown".data, [])).2

/- Claim C9: per-line record production, stated through a flat pair list. -/

/-- One iteration of the line loop, producing a flat pair per the amended
claim: a line that is not a URL context line and contains the separator
yields exactly one (bucket label, record) pair, keyed by the trimmed
left-hand side; other lines yield nothing. -/
def specStep (st : List Char × List (String × EvidenceRecord)) (raw : List Char) :
    List Char × List (String × EvidenceRecord) :=
  if ("[ + ] URL:".data).isPrefixOf (pyStripL raw) then
    (match splitFirst ("URL:".data) (pyStripL raw) with
     | some (_, post) => pyStripL post
     | none => "Unknown".data,
     st.2)
  else
    match splitFirst ("->".data) (pyStripL raw) with
    | none => st
    | some (lhs, rhs) =>
      (st.1, st.2 ++ [(⟨pyStripL lhs⟩, mkRecord st.1 (pyStripL rhs))])

/-- The flat (label, record) pair sequence of a dump, one pair per
matched evidence line, in line order. -/
def specPairs (dump : String) : List (String × EvidenceRecord) :=
  ((pySplit ['\n'] dump.data).foldl specStep ("Unknown".data, [])).2

/-- Group a flat pair sequence into the insertion-ordered bucket map. -/
def groupPairs (ps : List (String × EvidenceRecord)) : List (String × List EvidenceRecord) :=
  ps.foldl (fun bs p => bucketAppend bs p.1 p.2) []

/- The live verifier: secret_verifier.run_command and
json_report._verify_secret_type, with external effects as oracles. -/

/-- Outcome of the subprocess machinery for one executed command:
completion with exit code and both output streams, an exception raised at
or before the spawn (shlex or create_subprocess_exec), or expiry of the
asyncio.wait_for timeout. -/
inductive ExecOutcome where
  | completed (code : Int) (outText : String) (errText : String)
  | spawnFailed (msg : String)
  | timedOut
deriving Repr, DecidableEq, Inhabited

/-- The injected external collaborators: the catalog file content (empty
string models a missing file), the three OpenAI-backed calls (each may
raise, modelled by the error side), the subprocess (keyed by the executed
command text), and the wall clock. -/
structure Oracles where
  catalog : String
  aiVerifier : String → String → String → Except String (String × String)
  exec : String → ExecOutcome
  classify : String → Except String (String × String)
  remediate : String → Except String (List String)
  now : String

/-- The placeholder replacement table of run_command, in the source's dict
insertion order; every placeholder maps to the token. -/
def replacements (token : String) : List (String × String) :=
  [("<your_token>", token), ("API_KEY_HERE", token), ("TOKEN_HERE", token),
   ("$TOKEN", token), ("$API_KEY", token), ("TOKEN", token)]

/-- The placeholder substitution performed by run_command: when the token
is non-empty (a falsy empty token skips replacement), each placeholder is
replaced throughout the command in table order, each replacement operating
on the result of the previous one. -/
def substituteToken (cmd token : String) : String :=
  if token = "" then cmd
  else ⟨(replacements token).foldl (fun c pr => pyReplaceL c pr.1.data pr.2.data) cmd.data⟩

/-- run_command from secret_verifier.py, as invoked by the verifier:
substitute the token into the command, execute it, and return exit code,
decoded stdout, decoded stderr and the executed command; an exception from
the spawn propagates, and a timeout raises TimeoutError from
asyncio.wait_for. -/
def run_command (O : Oracles) (cmd token : String) :
    Except String (Int × String × String × String) :=
  match O.exec (substituteToken cmd token) with
  | .completed code o e => .ok (code, o, e, substituteToken cmd token)
  | .spawnFailed m => .error m
  | .timedOut => .error "TimeoutError"

/-- Ghost operating-system process events for one run_command call. -/
inductive ProcEvent where
  | spawned
  | exited
  | killed
deriving Repr, DecidableEq, BEq

/-- Ghost trace of process events performed by one run_command call, read
off the source: completion means the child was spawned and has exited
before communicate returned; a spawn failure creates no child; on a
timeout the child was spawned, asyncio.wait_for cancels the communicate
read, and the source contains no kill or terminate call, so no exit and no
kill event occurs before the call returns. -/
def run_command_events (O : Oracles) (cmd token : String) : List ProcEvent :=
  match O.exec (substituteToken cmd token) with
  | .completed _ _ _ => [.spawned, .exited]
  | .spawnFailed _ => []
  | .timedOut => [.spawned]

/-- Number of child processes still running after a call with the given
event trace. -/
def processesLeft (tr : List ProcEvent) : Nat :=
  tr.count .spawned - tr.count .exited - tr.count .killed

/-- The case-insensitive failure markers of the success heuristic in
_verify_secret_type. -/
def failure_markers : List String := ["unauthorized", "forbidden", "invalid", "denied"]

/-- The success heuristic of _verify_secret_type: exit code zero, no
failure marker in the lowercased concatenation of stdout, a line feed and
stderr, and non-empty stripped stdout. -/
def success_heuristic (code : Int) (outText errText : String) : Bool :=
  (code == 0) &&
  !(failure_markers.any (fun w => pyIn w (pyLower (outText ++ "\n" ++ errText)))) &&
  !(pyStrip outText).isEmpty

/-- The placeholder terms _verify_secret_type looks for in a template
before attempting a live execution. -/
def placeholder_terms : List String := ["<your_token>", "API_KEY_HERE", "TOKEN", "TOKEN_HERE"]

/-- Whether a template contains a recognized placeholder. -/
def hasPlaceholder (cmd : String) : Bool :=
  placeholder_terms.any (fun t => pyIn t cmd)

/-- The evidence excerpt stored in a result entry: the first fifty
characters with an ellipsis when the evidence is longer. -/
def truncEvidence (ev : String) : String :=
  if 50 < ev.length then pyTake 50 ev ++ "..." else ev

/-- One recorded verification attempt result; optional fields model dict
keys present only on some branches of the source. -/
structure AttemptResult where
  command : String
  executed_command : Option String
  exit_code : Option Int
  stdoutText : Option String
  stderrText : Option String
  success : Bool
  ai_status : Option String
  ai_analysis : Option String
  evidence_used : Option String
  error : Option String
deriving Repr, DecidableEq, Inhabited

/-- The AI verifier call with its exception handler: a raise degrades to
status ERROR with the exception text as analysis. -/
def aiResolve (O : Oracles) (stype ev cmd : String) : String × String :=
  match O.aiVerifier stype ev cmd with
  | .ok p => p
  | .error ex => ("ERROR", ex)

/-- State of the inner evidence loop of _verify_secret_type, plus the
enclosing attempted and verified flags it updates, plus a ghost log of the
subprocess invocations (template paired with executed command). -/
structure LoopState where
  cmd_attempted : Bool
  cmd_verified : Bool
  best : Option AttemptResult
  aiLast : Option (String × String)
  attempted : Bool
  verified : Bool
  calls : List (String × String)
deriving Repr, DecidableEq

/-- Success flag of the best result so far (best_result.get with default
False). -/
def bestSuccess : Option AttemptResult → Bool
  | some b => b.success
  | none => false

/-- Record a completed execution: build the result entry and keep it when
there is no result yet or this one succeeded and the kept one did not. -/
def recordOk (cmd ev : String) (succ : Bool) (code : Int) (o e ecmd : String)
    (s : LoopState) : LoopState :=
  let r : AttemptResult :=
    { command := cmd, executed_command := some ecmd, exit_code := some code,
      stdoutText := some (pyTake 4000 o), stderrText := some (pyTake 4000 e),
      success := succ,
      ai_status := (s.aiLast.map Prod.fst), ai_analysis := (s.aiLast.map Prod.snd),
      evidence_used := some (truncEvidence ev), error := none }
  if s.best.isNone || (succ && !(bestSuccess s.best)) then { s with best := some r }
  else s

/-- The run-and-record step for one (template, evidence) pairing, given
the state with the AI answer and the attempted flags already set: on
completion classify the outcome with the success heuristic, set the
verified flags on success, and keep the best result; an exception from
run_command is recorded as a failed attempt kept only when no result
exists yet. -/
def evidenceRun (O : Oracles) (cmd ev : String) (s : LoopState) : LoopState :=
  match run_command O cmd ev with
  | .ok (code, o, e, ecmd) =>
    recordOk cmd ev (success_heuristic code o e) code o e ecmd
      (if success_heuristic code o e then { s with cmd_verified := true, verified := true } else s)
  | .error ex =>
    let r : AttemptResult :=
      { command := cmd, executed_command := none, exit_code := none,
        stdoutText := none, stderrText := none, success := false,
        ai_status := (s.aiLast.map Prod.fst), ai_analysis := (s.aiLast.map Prod.snd),
        evidence_used := some (truncEvidence ev), error := some ex }
    if s.best.isNone then { s with best := some r } else s

/-- One iteration of the inner evidence loop: ask the AI verifier for the
candidate; when the template holds a recognized placeholder, mark the
attempt flags, log the subprocess invocation, and run the substituted
command. -/
def stepState (O : Oracles) (stype cmd ev : String) (s : LoopState) : LoopState :=
  if hasPlaceholder cmd then
    evidenceRun O cmd ev
      { s with aiLast := some (aiResolve O stype ev cmd),
               cmd_attempted := true, attempted := true,
               calls := s.calls ++ [(cmd, substituteToken cmd ev)] }
  else { s with aiLast := some (aiResolve O stype ev cmd) }

/-- The inner evidence loop of _verify_secret_type for one template,
iterating stepState over the candidates and stopping early once one
candidate succeeds. -/
def evidenceLoop (O : Oracles) (stype cmd : String) : List String → LoopState → LoopState
  | [], s => s
  | ev :: rest, s =>
    if (stepState O stype cmd ev s).cmd_verified then stepState O stype cmd ev s
    else evidenceLoop O stype cmd rest (stepState O stype cmd ev s)

/-- State of the outer command loop of _verify_secret_type: the attempted
and verified flags, the recorded results, and the ghost subprocess log. -/
structure VState where
  attempted : Bool
  verified : Bool
  results : List AttemptResult
  calls : List (String × String)
deriving Repr, DecidableEq

/-- Fresh inner-loop state for one template, importing the enclosing
flags and the ghost log. -/
def initLoopState (v : VState) : LoopState :=
  { cmd_attempted := false, cmd_verified := false, best := none, aiLast := none,
    attempted := v.attempted, verified := v.verified, calls := v.calls }

/-- The best-effort record written for a template on which no runnable
attempt was made: no execution fields, the AI guidance of the last
consulted candidate, and the sentinel evidence text. -/
def noTokenEntry (cmd : String) (ai : String × String) : AttemptResult :=
  { command := cmd, executed_command := none, exit_code := none,
    stdoutText := none, stderrText := none, success := false,
    ai_status := some ai.1, ai_analysis := some ai.2,
    evidence_used := some "No token candidates found", error := none }

/-- Process one template of the outer loop: run the inner evidence loop
over the first five candidates; when no runnable attempt was made, record
the AI guidance with the sentinel evidence text — which in Python reads
the loop variables of the inner loop, raising NameError when the evidence
list was empty and the loop body never ran; append the best result when
one exists. -/
def processCommand (O : Oracles) (stype : String) (evs : List String) (v : VState)
    (cmd : String) : Except String VState :=
  let s := evidenceLoop O stype cmd (evs.take 5) (initLoopState v)
  if s.cmd_attempted then
    match s.best with
    | some b => .ok { attempted := s.attempted, verified := s.verified,
                      results := v.results ++ [b], calls := s.calls }
    | none => .ok { attempted := s.attempted, verified := s.verified,
                    results := v.results, calls := s.calls }
  else
    match s.aiLast with
    | none => .error "NameError: name 'ai_status' is not defined"
    | some ai =>
      .ok { attempted := s.attempted, verified := s.verified,
            results := v.results ++ [noTokenEntry cmd ai], calls := s.calls }

/-- The outer loop over the first three templates, threading the state and
keeping the ghost log even when a template raises. -/
def runCommands (O : Oracles) (stype : String) (evs : List String) :
    List String → VState → Except String VState × List (String × String)
  | [], v => (.ok v, v.calls)
  | cmd :: rest, v =>
    match processCommand O stype evs v cmd with
    | .ok v1 => runCommands O stype evs rest v1
    | .error e => (.error e, v.calls)

/-- The dictionary returned by _verify_secret_type; the error field models
the key added by the enclosing exception handler. -/
structure VerifyResult where
  commands : List String
  attempted : Bool
  verified : Bool
  results : List AttemptResult
  error : Option String
deriving Repr, DecidableEq, Inhabited

/-- The command templates computed at the top of _verify_secret_type: the
catalog file content is read (empty when the file is missing) and an
empty text short-circuits to no commands. -/
def commandsFor (O : Oracles) (stype : String) : List String :=
  if O.catalog = "" then [] else extract_commands stype O.catalog

/-- _verify_secret_type from json_report.py, paired with the ghost log of
subprocess invocations (template, executed command); the first component
is the returned dictionary, with the enclosing try/except mapping an
escaped exception to the empty-result error dictionary. -/
def verify_full (O : Oracles) (stype : String) (evid_list : List EvidenceRecord) :
    VerifyResult × List (String × String) :=
  match runCommands O stype (evid_list.map (fun r => r.evidence))
          ((commandsFor O stype).take 3)
          { attempted := false, verified := false, results := [], calls := [] } with
  | (.ok v, calls) =>
    ({ commands := (commandsFor O stype).take 3, attempted := v.attempted,
       verified := v.verified, results := v.results, error := none }, calls)
  | (.error e, calls) =>
    ({ commands := [], attempted := false, verified := false, results := [],
       error := some e }, calls)

/-- _verify_secret_type from json_report.py (the returned dictionary). -/
def _verify_secret_type (O : Oracles) (stype : String) (evid_list : List EvidenceRecord) :
    VerifyResult :=
  (verify_full O stype evid_list).1

/- json_report.build_json_report: the finding aggregator. -/

/-- The severity rank table highest_rank, with the dict-get default of
zero for an unknown severity string. -/
def severity_rank (r : String) : Nat :=
  if r = "CRITICAL" then 4 else if r = "HIGH" then 3 else if r = "MEDIUM" then 2
  else if r = "LOW" then 1 else if r = "INFO" then 0 else 0

/-- The reverse lookup of the rank table; its argument, the running
maximum of severity_rank values, never exceeds four, so the catch-all arm
(a Python KeyError, unreachable) shares the rank-zero name. -/
def rank_name (n : Nat) : String :=
  match n with
  | 4 => "CRITICAL"
  | 3 => "HIGH"
  | 2 => "MEDIUM"
  | 1 => "LOW"
  | _ => "INFO"

/-- get_risk_score from json_report.py; the decimal score literals are
carried as rationals. -/
def get_risk_score (r : String) : Rat :=
  if r = "CRITICAL" then 9/10 else if r = "HIGH" then 7/10 else if r = "MEDIUM" then 1/2
  else if r = "LOW" then 3/10 else if r = "INFO" then 1/10 else 0

/-- get_impact_description from json_report.py. -/
def get_impact_description (risk stype : String) : String :=
  if risk = "CRITICAL" then
    "Attackers could potentially access, modify, or delete sensitive data using the exposed "
      ++ stype ++ ". This represents a severe security breach."
  else if risk = "HIGH" then
    "Attackers could potentially access sensitive information or perform unauthorized actions using the exposed "
      ++ stype ++ "."
  else if risk = "MEDIUM" then
    "The exposed " ++ stype ++ " could potentially be used for unauthorized access or data exposure."
  else if risk = "LOW" then
    "The exposed " ++ stype ++ " may pose minimal risk but should be reviewed for potential security implications."
  else if risk = "INFO" then
    "The exposed " ++ stype ++ " should be validated to determine if it represents a security risk."
  else "Unknown risk level."

/-- The verification sub-dictionary of a finding. -/
structure VerificationInfo where
  attempted : Bool
  verified : Bool
  commands : List String
  results : List AttemptResult
deriving Repr, DecidableEq, Inhabited

/-- One finding of the report. -/
structure Finding where
  id : String
  title : String
  severity : String
  status : String
  endpoint : String
  description : String
  impact : String
  remediation_steps : List String
  validation_commands : List String
  verification : VerificationInfo
  evidence : List String
  evidence_data : List EvidenceRecord
  secret_type : String
  risk_score : Rat
  confidence_level : String
  timestamp : String
  category : String
deriving Repr, DecidableEq, Inhabited

/-- The finding dictionary built for one secret-type bucket in
build_json_report, from the classify result, the remediation steps and
the verification dictionary. -/
def mkFinding (O : Oracles) (stype : String) (evid_list : List EvidenceRecord)
    (risk desc : String) (steps : List String) (ver : VerifyResult) : Finding :=
  { id := "api_exposure_" ++ ⟨pyReplaceL (pyLower stype).data (" ".data) ("_".data)⟩,
    title := "API Exposure - " ++ stype,
    severity := risk,
    status := "OPEN",
    endpoint := "JavaScript Files",
    description := desc,
    impact := get_impact_description risk stype,
    remediation_steps := steps,
    validation_commands := ver.commands,
    verification := { attempted := ver.attempted, verified := ver.verified,
                      commands := ver.commands, results := ver.results },
    evidence := (evid_list.take 5).map (fun r => r.evidence),
    evidence_data := evid_list.take 5,
    secret_type := stype,
    risk_score := get_risk_score risk,
    confidence_level := "high",
    timestamp := O.now,
    category := "api_exposure" }

/-- The bucket loop of build_json_report: classify (a raise propagates:
there is no handler in build_json_report, so the whole build fails),
fold the severity rank into the running maximum, fetch remediation steps
(a raise propagates likewise), run the verifier, and collect the
finding. -/
def buildFindings (O : Oracles) :
    List (String × List EvidenceRecord) → Nat → Except String (List Finding × Nat)
  | [], ms => .ok ([], ms)
  | (stype, evid_list) :: rest, ms =>
    match O.classify stype with
    | .error e => .error e
    | .ok (risk, desc) =>
      match O.remediate stype with
      | .error e => .error e
      | .ok steps =>
        match buildFindings O rest (Nat.max ms (severity_rank risk)) with
        | .error e => .error e
        | .ok (fs, ms2) =>
          .ok (mkFinding O stype evid_list risk desc steps
                 (_verify_secret_type O stype evid_list) :: fs, ms2)

/-- The sort key relation of the findings sort: descending severity rank.
Python's sorted is stable and with reverse equal keys keep their original
order, which is exactly insertion sort with this relation. -/
def findingGE (a b : Finding) : Prop :=
  severity_rank b.severity ≤ severity_rank a.severity

instance : DecidableRel findingGE :=
  fun a b => Nat.decLe (severity_rank b.severity) (severity_rank a.severity)

/-- sorted(findings, key=severity rank, reverse=True): the stable
descending sort of the findings list. -/
def sortFindings (fs : List Finding) : List Finding :=
  List.insertionSort findingGE fs

/-- The summary block of the report. -/
structure Summary where
  total_findings : Nat
  critical_findings : Nat
  high_findings : Nat
  medium_findings : Nat
  low_findings : Nat
  total_secret_types : Nat
  total_evidences : Nat
deriving Repr, DecidableEq, Inhabited

/-- The report dictionary of build_json_report. -/
structure Report where
  overall_risk : String
  summary : Summary
  findings : List Finding
  analysis_type : String
  timestamp : String
deriving Repr, DecidableEq, Inhabited

/-- build_json_report from json_report.py: build the findings over the
buckets in insertion order (secrets is the insertion-ordered dict of the
parser, modelled as an association list), compute the overall risk from
the running rank maximum (INFO when there are no findings), tally the
summary, and emit the findings sorted by descending severity rank. -/
def build_json_report (O : Oracles) (secrets : List (String × List EvidenceRecord)) :
    Except String Report :=
  match buildFindings O secrets 0 with
  | .error e => .error e
  | .ok (findings, max_score) =>
    .ok { overall_risk := if findings.isEmpty then "INFO" else rank_name max_score,
          summary :=
            { total_findings := findings.length,
              critical_findings := (findings.filter (fun f => f.severity == "CRITICAL")).length,
              high_findings := (findings.filter (fun f => f.severity == "HIGH")).length,
              medium_findings := (findings.filter (fun f => f.severity == "MEDIUM")).length,
              low_findings := (findings.filter (fun f => f.severity == "LOW")).length,
              total_secret_types := secrets.length,
              total_evidences := (secrets.map (fun p => p.2.length)).sum },
          findings := sortFindings findings,
          analysis_type := "api_exposure",
          timestamp := O.now }

/-- A concrete oracle assignment used to instantiate the verifier
theorems: the example catalog, an AI verifier that answers UNKNOWN, a
subprocess that completes cleanly with output, and fixed classification
and remediation answers. -/
def oracleW : Oracles :=
  { catalog := ghCatalog,
    aiVerifier := fun _ _ _ => .ok ("UNKNOWN", "analysis"),
    exec := fun _ => .completed 0 "data" "",
    classify := fun _ => .ok ("HIGH", "desc"),
    remediate := fun _ => .ok ["rotate the key"],
    now := "2026-01-01T00:00:00" }

/-- A concrete evidence record. -/
def recW : EvidenceRecord :=
  { evidence := "tok123", filename := "app.js", url := "https://x.com/app.js" }

/-- A catalog whose matching section holds two curl templates. -/
def slowCatalog : String :=
  "## GitHub Token\n```\ncurl -H \"Authorization: token $TOKEN\" https://api.github.com/user\ncurl -s -H \"Authorization: token $TOKEN\" https://api.github.com/user/repos\n```"

/-- Oracles whose subprocess always exceeds its timeout. -/
def oracleT : Oracles :=
  { catalog := slowCatalog,
    aiVerifier := fun _ _ _ => .ok ("UNKNOWN", "analysis"),
    exec := fun _ => .timedOut,
    classify := fun _ => .ok ("HIGH", "desc"),
    remediate := fun _ => .ok ["rotate the key"],
    now := "2026-01-01T00:00:00" }

/-- Oracles whose classification call raises on the bucket labelled B and
succeeds elsewhere. -/
def oracleC6 : Oracles :=
  { catalog := ghCatalog,
    aiVerifier := fun _ _ _ => .ok ("UNKNOWN", "analysis"),
    exec := fun _ => .completed 0 "data" "",
    classify := fun s => if s = "B" then .error "classify boom" else .ok ("LOW", "d"),
    remediate := fun _ => .ok ["rotate the key"],
    now := "2026-01-01T00:00:00" }

/-- Oracles whose classification call always raises. -/
def oracleC6b : Oracles :=
  { catalog := ghCatalog,
    aiVerifier := fun _ _ _ => .ok ("UNKNOWN", "analysis"),
    exec := fun _ => .completed 0 "data" "",
    classify := fun _ => .error "boom",
    remediate := fun _ => .ok ["rotate the key"],
    now := "2026-01-01T00:00:00" }

/-- The running severity maximum of the bucket loop. -/
def foldMax (fs : List Finding) (ms : Nat) : Nat :=
  fs.foldl (fun m f => Nat.max m (severity_rank f.severity)) ms

instance : IsTotal Finding findingGE :=
  ⟨fun a b => Nat.le_total (severity_rank b.severity) (severity_rank a.severity)⟩

instance : IsTrans Finding findingGE :=
  ⟨fun _ _ _ hab hbc => Nat.le_trans hbc hab⟩

/-- Extract the report of a successful build (used to phrase witnesses). -/
def reportOf : Except String Report → Report
  | .ok r => r
  | .error _ => default

/- Theorems. -/

/-- Evaluation of the section fold of extract_commands on the example
catalog, for an arbitrary normalized request label w. -/
theorem extract_gh (w : List Char) :
    (pySplit ("## ".data) ghCatalog.data).foldl (processSection w) [] =
      if pyInL ("githubtoken".data) w || pyInL w ("githubtoken".data)
      then [ghTemplate.data] else [] := rfl

/-- Claim C1, counterexample: on the spec's own example catalog, requesting
secret type GitHub Personal Token returns no template at all, because
neither normalized string (githubtoken, githubpersonaltoken) is a
substring of the other; the claim asserts this request matches the section
and returns its one template. -/
theorem C1_counterexample :
    extract_commands "GitHub Personal Token" ghCatalog = [] ∧
    pyIn (normalize "GitHub Token") (normalize "GitHub Personal Token") = false ∧
    pyIn (normalize "GitHub Personal Token") (normalize "GitHub Token") = false := by
  refine ⟨by decide, by decide, by decide⟩

/-- Claim C1 (amended): matching normalizes both the requested label and
the section title by removing non-alphanumeric characters and lowercasing,
and the section matches exactly when the normalized title is a substring
of the normalized label or vice versa; on the example catalog with the
section titled GitHub Token this returns the one curl template precisely
for the labels satisfying that bidirectional containment — which the label
GitHub Personal Token does not. -/
theorem C1_theorem (L : String) :
    extract_commands L ghCatalog =
      if pyIn (normalize "GitHub Token") (normalize L) ||
         pyIn (normalize L) (normalize "GitHub Token")
      then [ghTemplate] else [] := by
  unfold extract_commands
  rw [extract_gh]
  rw [show (pyIn (normalize "GitHub Token") (normalize L) ||
            pyIn (normalize L) (normalize "GitHub Token"))
        = (pyInL ("githubtoken".data) (normalizeL L.data) ||
           pyInL (normalizeL L.data) ("githubtoken".data)) from rfl]
  cases hb : (pyInL ("githubtoken".data) (normalizeL L.data) ||
              pyInL (normalizeL L.data) ("githubtoken".data)) <;> rfl

/-- Grouping commutes with appending one pair. -/
theorem groupPairs_append (ps : List (String × EvidenceRecord)) (p : String × EvidenceRecord) :
    groupPairs (ps ++ [p]) = bucketAppend (groupPairs ps) p.1 p.2 := by
  unfold groupPairs
  rw [List.foldl_append]
  rfl

/-- The line fold of parse_secret_file computes the grouped form of the
line fold of the flat pair production, from any aligned intermediate
state. -/
theorem parse_spec_fold :
    ∀ (lines : List (List Char)) (u : List Char) (ps : List (String × EvidenceRecord)),
      lines.foldl parseStep (u, groupPairs ps) =
        ((lines.foldl specStep (u, ps)).1, groupPairs (lines.foldl specStep (u, ps)).2)
  | [], _, _ => rfl
  | raw :: rest, u, ps => by
    simp only [List.foldl_cons]
    by_cases h : (("[ + ] URL:".data).isPrefixOf (pyStripL raw)) = true
    · simp only [parseStep, specStep, h, if_pos]
      exact parse_spec_fold rest _ ps
    · cases hs : splitFirst ("->".data) (pyStripL raw) with
      | none =>
        simp only [parseStep, specStep, h, if_neg, hs]
        exact parse_spec_fold rest u ps
      | some pr =>
        simp only [parseStep, specStep, h, if_neg, hs]
        rw [show bucketAppend (groupPairs ps) ⟨pyStripL pr.1⟩ (mkRecord u (pyStripL pr.2))
              = groupPairs (ps ++ [(⟨pyStripL pr.1⟩, mkRecord u (pyStripL pr.2))]) from
            (groupPairs_append ps (⟨pyStripL pr.1⟩, mkRecord u (pyStripL pr.2))).symm]
        exact parse_spec_fold rest u _

/-- Claim C9, counterexample: this dump consists of one line that contains
the separator, yet the parser produces no record for it, because the URL
context branch consumes the line first; the claim requires every line
containing the separator to yield exactly one record. -/
theorem C9_counterexample :
    pyIn "->" "[ + ] URL: https://x.com/a->b.js" = true ∧
    parse_secret_file "[ + ] URL: https://x.com/a->b.js" = [] :=
  ⟨by decide, by decide⟩

/-- Claim C9 (amended): every line that does not update the URL context
(does not start with the URL marker after trimming) and contains the
separator is mapped to exactly one record, appended to the bucket named by
the whitespace-trimmed left-hand side of the split at the first separator
occurrence; URL context lines and lines without the separator contribute
nothing; the parser is a total function (never raises). The statement
equates the parser with the grouping of the flat one-pair-per-matched-line
sequence. -/
theorem C9_theorem (dump : String) :
    parse_secret_file dump = groupPairs (specPairs dump) := by
  unfold parse_secret_file specPairs
  rw [show (("Unknown".data, []) : List Char × List (String × List EvidenceRecord))
        = ("Unknown".data, groupPairs []) from rfl]
  rw [parse_spec_fold]

/-- recordOk leaves every field but best unchanged. -/
theorem recordOk_fields (cmd ev : String) (succ : Bool) (code : Int) (o e ecmd : String)
    (s : LoopState) :
    (recordOk cmd ev succ code o e ecmd s).attempted = s.attempted ∧
    (recordOk cmd ev succ code o e ecmd s).verified = s.verified ∧
    (recordOk cmd ev succ code o e ecmd s).cmd_attempted = s.cmd_attempted ∧
    (recordOk cmd ev succ code o e ecmd s).cmd_verified = s.cmd_verified ∧
    (recordOk cmd ev succ code o e ecmd s).calls = s.calls ∧
    (recordOk cmd ev succ code o e ecmd s).aiLast = s.aiLast := by
  unfold recordOk
  split <;> exact ⟨rfl, rfl, rfl, rfl, rfl, rfl⟩

theorem recordOk_best_isSome (cmd ev : String) (succ : Bool) (code : Int) (o e ecmd : String)
    (s : LoopState) : (recordOk cmd ev succ code o e ecmd s).best.isSome = true := by
  unfold recordOk
  by_cases h : (s.best.isNone || (succ && !(bestSuccess s.best))) = true
  · rw [if_pos h]
    rfl
  · rw [if_neg h]
    simp only [Bool.or_eq_true, not_or] at h
    cases hb : s.best with
    | none => simp [hb] at h
    | some b => simp [hb]

/-- evidenceRun leaves the attempt flags, the ghost log and the AI answer
unchanged, and always leaves a recorded best result. -/
theorem evidenceRun_fields (O : Oracles) (cmd ev : String) (s : LoopState) :
    (evidenceRun O cmd ev s).attempted = s.attempted ∧
    (evidenceRun O cmd ev s).cmd_attempted = s.cmd_attempted ∧
    (evidenceRun O cmd ev s).calls = s.calls ∧
    (evidenceRun O cmd ev s).aiLast = s.aiLast ∧
    (evidenceRun O cmd ev s).best.isSome = true := by
  unfold evidenceRun
  cases hrc : run_command O cmd ev with
  | ok t =>
    obtain ⟨code, o, e, ecmd⟩ := t
    dsimp only
    refine ⟨?_, ?_, ?_, ?_, recordOk_best_isSome _ _ _ _ _ _ _ _⟩ <;>
      · rcases recordOk_fields cmd ev (success_heuristic code o e) code o e ecmd
          (if success_heuristic code o e then { s with cmd_verified := true, verified := true } else s)
          with ⟨h1, h2, h3, h4, h5, h6⟩
        split_ifs at * <;> simp_all
  | error ex =>
    dsimp only
    split_ifs with h1
    · exact ⟨rfl, rfl, rfl, rfl, rfl⟩
    · refine ⟨rfl, rfl, rfl, rfl, ?_⟩
      cases hb : s.best with
      | none => simp [hb] at h1
      | some b => simp [hb]

/-- With a placeholder in the template, one iteration marks both attempt
flags, extends the ghost log by the one executed command, keeps the AI
answer it recorded, and holds a best result. -/
theorem stepState_placeholder (O : Oracles) (stype cmd ev : String) (s : LoopState)
    (hp : hasPlaceholder cmd = true) :
    (stepState O stype cmd ev s).attempted = true ∧
    (stepState O stype cmd ev s).cmd_attempted = true ∧
    (stepState O stype cmd ev s).calls = s.calls ++ [(cmd, substituteToken cmd ev)] ∧
    (stepState O stype cmd ev s).aiLast = some (aiResolve O stype ev cmd) ∧
    (stepState O stype cmd ev s).best.isSome = true := by
  unfold stepState
  rw [if_pos hp]
  rcases evidenceRun_fields O cmd ev
      { s with aiLast := some (aiResolve O stype ev cmd),
               cmd_attempted := true, attempted := true,
               calls := s.calls ++ [(cmd, substituteToken cmd ev)] } with ⟨h1, h2, h3, h4, h5⟩
  exact ⟨h1, h2, h3, h4, h5⟩

/-- Without a placeholder, one iteration only records the AI answer. -/
theorem stepState_no_placeholder (O : Oracles) (stype cmd ev : String) (s : LoopState)
    (hp : hasPlaceholder cmd = false) :
    stepState O stype cmd ev s = { s with aiLast := some (aiResolve O stype ev cmd) } := by
  unfold stepState
  rw [hp]
  rfl

/-- Claim C3 invariant, at the loop level: if verified implies attempted
on entry, it does on exit. -/
theorem loop_inv (O : Oracles) (stype cmd : String) :
    ∀ (evs : List String) (s : LoopState),
      (s.verified = true → s.attempted = true) →
      ((evidenceLoop O stype cmd evs s).verified = true →
       (evidenceLoop O stype cmd evs s).attempted = true)
  | [], _, h => h
  | ev :: rest, s, h => by
    have hstep : (stepState O stype cmd ev s).verified = true →
        (stepState O stype cmd ev s).attempted = true := by
      by_cases hp : hasPlaceholder cmd = true
      · intro _
        exact (stepState_placeholder O stype cmd ev s hp).1
      · rw [stepState_no_placeholder O stype cmd ev s (by simpa using hp)]
        exact h
    simp only [evidenceLoop]
    split_ifs with hv
    · exact hstep
    · exact loop_inv O stype cmd rest (stepState O stype cmd ev s) hstep

/-- Every entry the loop adds to the ghost log carries a template with a
recognized placeholder. -/
theorem loop_calls_placeholder (O : Oracles) (stype cmd : String) :
    ∀ (evs : List String) (s : LoopState),
      (∀ pr ∈ s.calls, hasPlaceholder pr.1 = true) →
      ∀ pr ∈ (evidenceLoop O stype cmd evs s).calls, hasPlaceholder pr.1 = true
  | [], _, h => h
  | ev :: rest, s, h => by
    have hstep : ∀ pr ∈ (stepState O stype cmd ev s).calls, hasPlaceholder pr.1 = true := by
      by_cases hp : hasPlaceholder cmd = true
      · rw [(stepState_placeholder O stype cmd ev s hp).2.2.1]
        intro pr hpr
        rcases List.mem_append.mp hpr with hold | hnew
        · exact h pr hold
        · rcases List.mem_singleton.mp hnew with rfl
          exact hp
      · rw [stepState_no_placeholder O stype cmd ev s (by simpa using hp)]
        exact h
    simp only [evidenceLoop]
    split_ifs with hv
    · exact hstep
    · exact loop_calls_placeholder O stype cmd rest (stepState O stype cmd ev s) hstep

/-- The loop never resets the per-template attempted flag or drops a
recorded best result. -/
theorem loop_mono (O : Oracles) (stype cmd : String) :
    ∀ (evs : List String) (s : LoopState),
      (s.cmd_attempted = true → (evidenceLoop O stype cmd evs s).cmd_attempted = true) ∧
      (s.best.isSome = true → (evidenceLoop O stype cmd evs s).best.isSome = true)
  | [], _ => ⟨fun h => h, fun h => h⟩
  | ev :: rest, s => by
    have hca : s.cmd_attempted = true → (stepState O stype cmd ev s).cmd_attempted = true := by
      by_cases hp : hasPlaceholder cmd = true
      · intro _
        exact (stepState_placeholder O stype cmd ev s hp).2.1
      · rw [stepState_no_placeholder O stype cmd ev s (by simpa using hp)]
        exact fun h => h
    have hbs : s.best.isSome = true → (stepState O stype cmd ev s).best.isSome = true := by
      by_cases hp : hasPlaceholder cmd = true
      · intro _
        exact (stepState_placeholder O stype cmd ev s hp).2.2.2.2
      · rw [stepState_no_placeholder O stype cmd ev s (by simpa using hp)]
        exact fun h => h
    simp only [evidenceLoop]
    split_ifs with hv
    · exact ⟨hca, hbs⟩
    · exact ⟨fun h => ((loop_mono O stype cmd rest (stepState O stype cmd ev s)).1 (hca h)),
             fun h => ((loop_mono O stype cmd rest (stepState O stype cmd ev s)).2 (hbs h))⟩

/-- With a placeholder and at least one candidate, the loop attempts the
template and records a best result. -/
theorem loop_placeholder_nonempty (O : Oracles) (stype cmd ev : String) (rest : List String)
    (s : LoopState) (hp : hasPlaceholder cmd = true) :
    (evidenceLoop O stype cmd (ev :: rest) s).cmd_attempted = true ∧
    (evidenceLoop O stype cmd (ev :: rest) s).best.isSome = true := by
  simp only [evidenceLoop]
  split_ifs with hv
  · exact ⟨(stepState_placeholder O stype cmd ev s hp).2.1,
           (stepState_placeholder O stype cmd ev s hp).2.2.2.2⟩
  · exact ⟨(loop_mono O stype cmd rest _).1 (stepState_placeholder O stype cmd ev s hp).2.1,
           (loop_mono O stype cmd rest _).2 (stepState_placeholder O stype cmd ev s hp).2.2.2.2⟩

/-- Without a placeholder the loop only rewrites the AI answer: every
other field is unchanged, and with at least one candidate the final AI
answer is the resolved answer of one of them. -/
theorem loop_no_placeholder (O : Oracles) (stype cmd : String) (hp : hasPlaceholder cmd = false) :
    ∀ (evs : List String) (s : LoopState),
      (evidenceLoop O stype cmd evs s).cmd_attempted = s.cmd_attempted ∧
      (evidenceLoop O stype cmd evs s).cmd_verified = s.cmd_verified ∧
      (evidenceLoop O stype cmd evs s).best = s.best ∧
      (evidenceLoop O stype cmd evs s).attempted = s.attempted ∧
      (evidenceLoop O stype cmd evs s).verified = s.verified ∧
      (evidenceLoop O stype cmd evs s).calls = s.calls ∧
      (evs = [] → (evidenceLoop O stype cmd evs s).aiLast = s.aiLast) ∧
      (evs ≠ [] → ∃ ev ∈ evs, (evidenceLoop O stype cmd evs s).aiLast = some (aiResolve O stype ev cmd))
  | [], s => ⟨rfl, rfl, rfl, rfl, rfl, rfl, fun _ => rfl, fun h => absurd rfl h⟩
  | ev :: rest, s => by
    rw [show evidenceLoop O stype cmd (ev :: rest) s =
          (if (stepState O stype cmd ev s).cmd_verified = true then stepState O stype cmd ev s
           else evidenceLoop O stype cmd rest (stepState O stype cmd ev s)) from rfl]
    rw [stepState_no_placeholder O stype cmd ev s hp]
    split_ifs with hv
    · exact ⟨rfl, rfl, rfl, rfl, rfl, rfl, fun hnil => absurd hnil (by simp),
             fun _ => ⟨ev, List.mem_cons_self ev rest, rfl⟩⟩
    · rcases loop_no_placeholder O stype cmd hp rest
          { s with aiLast := some (aiResolve O stype ev cmd) } with
        ⟨h1, h2, h3, h4, h5, h6, h7, h8⟩
      refine ⟨h1, h2, h3, h4, h5, h6, fun hnil => absurd hnil (by simp), fun _ => ?_⟩
      by_cases hrest : rest = []
      · refine ⟨ev, List.mem_cons_self ev rest, ?_⟩
        rw [h7 hrest]
      · rcases h8 hrest with ⟨ev2, hev2, hai⟩
        exact ⟨ev2, List.mem_cons_of_mem ev hev2, hai⟩

/-- With at least one candidate, each processed template appends exactly
one result entry; a template without a recognized placeholder appends the
best-effort record carrying the resolved AI answer of one of the
candidates. -/
theorem processCommand_ok (O : Oracles) (stype : String) (evs : List String) (v : VState)
    (cmd : String) (hevs : evs.take 5 ≠ []) :
    ∃ b v1, processCommand O stype evs v cmd = .ok v1 ∧
      v1.results = v.results ++ [b] ∧
      (hasPlaceholder cmd = false →
        ∃ ev ∈ evs.take 5, b = noTokenEntry cmd (aiResolve O stype ev cmd)) := by
  unfold processCommand
  rcases hsplit : evs.take 5 with _ | ⟨ev, rest⟩
  · exact absurd hsplit hevs
  · by_cases hp : hasPlaceholder cmd = true
    · rcases loop_placeholder_nonempty O stype cmd ev rest (initLoopState v) hp with ⟨hca, hbs⟩
      rcases Option.isSome_iff_exists.mp hbs with ⟨b, hb⟩
      refine ⟨b, ⟨(evidenceLoop O stype cmd (ev :: rest) (initLoopState v)).attempted,
                  (evidenceLoop O stype cmd (ev :: rest) (initLoopState v)).verified,
                  v.results ++ [b],
                  (evidenceLoop O stype cmd (ev :: rest) (initLoopState v)).calls⟩,
              ?_, rfl, fun hnp => absurd hp (by simp [hnp])⟩
      dsimp only
      rw [if_pos hca, hb]
    · have hp' : hasPlaceholder cmd = false := by simpa using hp
      rcases loop_no_placeholder O stype cmd hp' (ev :: rest) (initLoopState v) with
        ⟨h1, _, _, _, _, _, _, h8⟩
      rcases h8 (by simp) with ⟨ev2, hev2, hai⟩
      refine ⟨noTokenEntry cmd (aiResolve O stype ev2 cmd),
              ⟨(evidenceLoop O stype cmd (ev :: rest) (initLoopState v)).attempted,
               (evidenceLoop O stype cmd (ev :: rest) (initLoopState v)).verified,
               v.results ++ [noTokenEntry cmd (aiResolve O stype ev2 cmd)],
               (evidenceLoop O stype cmd (ev :: rest) (initLoopState v)).calls⟩,
              ?_, rfl, fun _ => ⟨ev2, hev2, rfl⟩⟩
      dsimp only
      rw [if_neg (show ¬((evidenceLoop O stype cmd (ev :: rest) (initLoopState v)).cmd_attempted = true) by
            rw [h1]
            simp [initLoopState]), hai]

/-- A successful processCommand call preserves the ghost-log safety
property that every logged template holds a placeholder. -/
theorem processCommand_calls_safe (O : Oracles) (stype : String) (evs : List String)
    (v : VState) (cmd : String) (v1 : VState)
    (hok : processCommand O stype evs v cmd = .ok v1)
    (hv : ∀ pr ∈ v.calls, hasPlaceholder pr.1 = true) :
    ∀ pr ∈ v1.calls, hasPlaceholder pr.1 = true := by
  have hcalls : ∀ pr ∈ (evidenceLoop O stype cmd (evs.take 5) (initLoopState v)).calls,
      hasPlaceholder pr.1 = true :=
    loop_calls_placeholder O stype cmd (evs.take 5) (initLoopState v) hv
  unfold processCommand at hok
  dsimp only at hok
  split_ifs at hok with hca
  · cases hb : (evidenceLoop O stype cmd (evs.take 5) (initLoopState v)).best with
    | none =>
      rw [hb] at hok
      cases hok
      exact hcalls
    | some b =>
      rw [hb] at hok
      cases hok
      exact hcalls
  · cases hai : (evidenceLoop O stype cmd (evs.take 5) (initLoopState v)).aiLast with
    | none =>
      rw [hai] at hok
      cases hok
    | some ai =>
      rw [hai] at hok
      cases hok
      exact hcalls

/-- A successful processCommand call preserves the verified-implies-
attempted invariant. -/
theorem processCommand_inv (O : Oracles) (stype : String) (evs : List String)
    (v : VState) (cmd : String) (v1 : VState)
    (hok : processCommand O stype evs v cmd = .ok v1)
    (hv : v.verified = true → v.attempted = true) :
    v1.verified = true → v1.attempted = true := by
  have hloop : (evidenceLoop O stype cmd (evs.take 5) (initLoopState v)).verified = true →
      (evidenceLoop O stype cmd (evs.take 5) (initLoopState v)).attempted = true :=
    loop_inv O stype cmd (evs.take 5) (initLoopState v) hv
  unfold processCommand at hok
  dsimp only at hok
  split_ifs at hok with hca
  · cases hb : (evidenceLoop O stype cmd (evs.take 5) (initLoopState v)).best with
    | none =>
      rw [hb] at hok
      cases hok
      exact hloop
    | some b =>
      rw [hb] at hok
      cases hok
      exact hloop
  · cases hai : (evidenceLoop O stype cmd (evs.take 5) (initLoopState v)).aiLast with
    | none =>
      rw [hai] at hok
      cases hok
    | some ai =>
      rw [hai] at hok
      cases hok
      exact hloop

/-- With at least one candidate, the outer loop succeeds and appends
exactly one entry per template, and each entry for a placeholder-free
template is the best-effort record with the sentinel evidence text. -/
theorem runCommands_ok (O : Oracles) (stype : String) (evs : List String)
    (hevs : evs.take 5 ≠ []) :
    ∀ (cmds : List String) (v : VState),
      ∃ entries v1, runCommands O stype evs cmds v = (.ok v1, v1.calls) ∧
        v1.results = v.results ++ entries ∧
        entries.length = cmds.length ∧
        (∀ i cmd, cmds.get? i = some cmd → hasPlaceholder cmd = false →
          ∃ ev ∈ evs.take 5, entries.get? i = some (noTokenEntry cmd (aiResolve O stype ev cmd)))
  | [], v => by
    refine ⟨[], v, rfl, by simp, rfl, ?_⟩
    intro i cmd hget
    simp at hget
  | cmd :: rest, v => by
    rcases processCommand_ok O stype evs v cmd hevs with ⟨b, v1, hok, hres, hcontent⟩
    rcases runCommands_ok O stype evs hevs rest v1 with ⟨entries, v2, hrun, hres2, hlen, hidx⟩
    refine ⟨b :: entries, v2, ?_, ?_, by simp [hlen], ?_⟩
    · simp only [runCommands, hok]
      exact hrun
    · rw [hres2, hres]
      simp
    · intro i c hget hnp
      cases i with
      | zero =>
        simp only [List.get?] at hget
        cases hget
        rcases hcontent hnp with ⟨ev, hev, hb⟩
        exact ⟨ev, hev, by simp [hb]⟩
      | succ n =>
        simp only [List.get?] at hget ⊢
        exact hidx n c hget hnp

/-- Every entry of the final ghost log carries a template with a
recognized placeholder. -/
theorem runCommands_calls_safe (O : Oracles) (stype : String) (evs : List String) :
    ∀ (cmds : List String) (v : VState) (res : Except String VState)
      (calls : List (String × String)),
      runCommands O stype evs cmds v = (res, calls) →
      (∀ pr ∈ v.calls, hasPlaceholder pr.1 = true) →
      ∀ pr ∈ calls, hasPlaceholder pr.1 = true
  | [], v, res, calls, hrun, hv => by
    cases hrun
    exact hv
  | cmd :: rest, v, res, calls, hrun, hv => by
    rw [show runCommands O stype evs (cmd :: rest) v =
          (match processCommand O stype evs v cmd with
           | .ok v1 => runCommands O stype evs rest v1
           | .error e => (.error e, v.calls)) from rfl] at hrun
    cases hok : processCommand O stype evs v cmd with
    | ok v1 =>
      rw [hok] at hrun
      exact runCommands_calls_safe O stype evs rest v1 res calls hrun
        (processCommand_calls_safe O stype evs v cmd v1 hok hv)
    | error e =>
      rw [hok] at hrun
      cases hrun
      exact hv

/-- The verified-implies-attempted invariant survives the outer loop. -/
theorem runCommands_inv (O : Oracles) (stype : String) (evs : List String) :
    ∀ (cmds : List String) (v : VState) (v1 : VState) (calls : List (String × String)),
      runCommands O stype evs cmds v = (.ok v1, calls) →
      (v.verified = true → v.attempted = true) →
      (v1.verified = true → v1.attempted = true)
  | [], v, v1, calls, hrun, hv => by
    cases hrun
    exact hv
  | cmd :: rest, v, v1, calls, hrun, hv => by
    rw [show runCommands O stype evs (cmd :: rest) v =
          (match processCommand O stype evs v cmd with
           | .ok w => runCommands O stype evs rest w
           | .error e => (.error e, v.calls)) from rfl] at hrun
    cases hok : processCommand O stype evs v cmd with
    | ok w =>
      rw [hok] at hrun
      exact runCommands_inv O stype evs rest w v1 calls hrun
        (processCommand_inv O stype evs v cmd w hok hv)
    | error e =>
      rw [hok] at hrun
      cases hrun

/-- A non-empty evidence list yields a non-empty candidate prefix. -/
theorem evs_take_ne (evid : List EvidenceRecord) (h : evid ≠ []) :
    (evid.map (fun r => r.evidence)).take 5 ≠ [] := by
  cases evid with
  | nil => exact absurd rfl h
  | cons a l => simp

/-- Claim C3: for every oracle behaviour, secret type, evidence list and
catalog, a verification result with verified set also has attempted set;
the verified flag is only ever raised inside the branch that has just
raised the attempted flag, and the exception fallback clears both. -/
theorem C3_theorem (O : Oracles) (stype : String) (evid_list : List EvidenceRecord) :
    (_verify_secret_type O stype evid_list).verified = true →
    (_verify_secret_type O stype evid_list).attempted = true := by
  unfold _verify_secret_type verify_full
  rcases hrc : runCommands O stype (evid_list.map (fun r => r.evidence))
      ((commandsFor O stype).take 3)
      { attempted := false, verified := false, results := [], calls := [] } with ⟨res, calls⟩
  rw [hrc]
  cases res with
  | ok v =>
    exact runCommands_inv O stype _ _ _ v calls hrc (by simp)
  | error e =>
    intro hv
    cases hv

/-- Claim C10: with a non-empty evidence list the results sequence holds
exactly one entry per processed template — its length equals that of the
first-three prefix of the extracted commands — and so never more than
three entries. -/
theorem C10_theorem (O : Oracles) (stype : String) (evid_list : List EvidenceRecord)
    (h : evid_list ≠ []) :
    (_verify_secret_type O stype evid_list).results.length =
      ((commandsFor O stype).take 3).length ∧
    (_verify_secret_type O stype evid_list).results.length ≤ 3 := by
  rcases runCommands_ok O stype (evid_list.map (fun r => r.evidence)) (evs_take_ne evid_list h)
      ((commandsFor O stype).take 3)
      { attempted := false, verified := false, results := [], calls := [] } with
    ⟨entries, v1, hrun, hres, hlen, _⟩
  have hv : (_verify_secret_type O stype evid_list).results = entries := by
    unfold _verify_secret_type verify_full
    rw [hrun]
    dsimp only
    rw [hres]
    simp
  rw [hv, hlen]
  refine ⟨rfl, ?_⟩
  rw [List.length_take]
  exact Nat.min_le_left 3 _

/-- Claim C8: with a non-empty evidence list, every subprocess invocation
recorded in the ghost log is for a template holding a recognized
placeholder — a template without one therefore never triggers a
subprocess — and the results entry recorded at the position of such a
template is the best-effort record: no execution fields, success false,
the sentinel evidence text, and the AI oracle's resolved answer for one of
the candidates. -/
theorem C8_theorem (O : Oracles) (stype : String) (evid_list : List EvidenceRecord)
    (h : evid_list ≠ []) :
    (∀ pr ∈ (verify_full O stype evid_list).2, hasPlaceholder pr.1 = true) ∧
    (∀ i cmd, ((commandsFor O stype).take 3).get? i = some cmd →
      hasPlaceholder cmd = false →
      ∃ ev ∈ (evid_list.map (fun r => r.evidence)).take 5,
        (_verify_secret_type O stype evid_list).results.get? i =
          some (noTokenEntry cmd (aiResolve O stype ev cmd))) ∧
    (∀ cmd ai, (noTokenEntry cmd ai).evidence_used = some "No token candidates found" ∧
      (noTokenEntry cmd ai).executed_command = none ∧
      (noTokenEntry cmd ai).success = false ∧
      (noTokenEntry cmd ai).ai_status = some ai.1 ∧
      (noTokenEntry cmd ai).ai_analysis = some ai.2) := by
  rcases runCommands_ok O stype (evid_list.map (fun r => r.evidence)) (evs_take_ne evid_list h)
      ((commandsFor O stype).take 3)
      { attempted := false, verified := false, results := [], calls := [] } with
    ⟨entries, v1, hrun, hres, hlen, hidx⟩
  have hv : (_verify_secret_type O stype evid_list).results = entries := by
    unfold _verify_secret_type verify_full
    rw [hrun]
    dsimp only
    rw [hres]
    simp
  refine ⟨?_, ?_, fun cmd ai => ⟨rfl, rfl, rfl, rfl, rfl⟩⟩
  · intro pr hpr
    have hcalls : (verify_full O stype evid_list).2 = v1.calls := by
      unfold verify_full
      rw [hrun]
    rw [hcalls] at hpr
    exact runCommands_calls_safe O stype _ _ _ (.ok v1) v1.calls hrun (by simp) pr hpr
  · intro i cmd hget hnp
    rcases hidx i cmd hget hnp with ⟨ev, hev, hentry⟩
    exact ⟨ev, hev, by rw [hv]; exact hentry⟩

/-- Witness for claim C3 at a concrete input on which verified is true. -/
theorem C3_witness :
    (_verify_secret_type oracleW "GitHub Token" [recW]).attempted = true :=
  C3_theorem oracleW "GitHub Token" [recW] (by decide)

/-- Witness for claim C10 at a concrete input. -/
theorem C10_witness :
    (_verify_secret_type oracleW "GitHub Token" [recW]).results.length =
      ((commandsFor oracleW "GitHub Token").take 3).length ∧
    (_verify_secret_type oracleW "GitHub Token" [recW]).results.length ≤ 3 :=
  C10_theorem oracleW "GitHub Token" [recW] (by decide)

/-- Witness for claim C8 at a concrete input. -/
theorem C8_witness :
    (∀ pr ∈ (verify_full oracleW "GitHub Token" [recW]).2, hasPlaceholder pr.1 = true) ∧
    (∀ i cmd, ((commandsFor oracleW "GitHub Token").take 3).get? i = some cmd →
      hasPlaceholder cmd = false →
      ∃ ev ∈ (([recW] : List EvidenceRecord).map (fun r => r.evidence)).take 5,
        (_verify_secret_type oracleW "GitHub Token" [recW]).results.get? i =
          some (noTokenEntry cmd (aiResolve oracleW "GitHub Token" ev cmd))) ∧
    (∀ cmd ai, (noTokenEntry cmd ai).evidence_used = some "No token candidates found" ∧
      (noTokenEntry cmd ai).executed_command = none ∧
      (noTokenEntry cmd ai).success = false ∧
      (noTokenEntry cmd ai).ai_status = some ai.1 ∧
      (noTokenEntry cmd ai).ai_analysis = some ai.2) :=
  C8_theorem oracleW "GitHub Token" [recW] (by decide)

/-- The substring search succeeds exactly on infixes. -/
theorem pyInL_iff (pat : List Char) : ∀ l : List Char, pyInL pat l = true ↔ pat <:+: l
  | [] => by
    constructor
    · intro h
      unfold pyInL findPat at h
      by_cases hp : pat.isEmpty = true
      · rw [List.isEmpty_iff] at hp
        subst hp
        exact List.nil_infix
      · rw [if_neg hp] at h
        simp at h
    · intro h
      rw [List.infix_nil] at h
      subst h
      rfl
  | c :: rest => by
    constructor
    · intro h
      unfold pyInL findPat at h
      by_cases hp : pat.isPrefixOf (c :: rest) = true
      · exact (List.isPrefixOf_iff_prefix.mp hp).isInfix
      · rw [if_neg hp, Option.isSome_map'] at h
        exact List.infix_cons_iff.mpr (Or.inr ((pyInL_iff pat rest).mp h))
    · intro h
      unfold pyInL findPat
      by_cases hp : pat.isPrefixOf (c :: rest) = true
      · rw [if_pos hp]
        rfl
      · rw [if_neg hp, Option.isSome_map']
        rcases List.infix_cons_iff.mp h with h0 | h0
        · exact absurd (List.isPrefixOf_iff_prefix.mpr h0) hp
        · exact (pyInL_iff pat rest).mpr h0

/-- A prefix of a list with a distinguished absent element stays within
the part before that element. -/
theorem prefix_before_sep {p a b : List Char} {c : Char} (hc : c ∉ p)
    (h : p <+: a ++ c :: b) : p <+: a := by
  induction a generalizing p with
  | nil =>
    cases p with
    | nil => exact List.nil_prefix
    | cons x xs =>
      rcases List.prefix_cons_iff.mp h with h0 | ⟨t, ht, _⟩
      · cases h0
      · cases ht
        exact absurd (List.mem_cons_self c xs) hc
  | cons y ys ih =>
    cases p with
    | nil => exact List.nil_prefix
    | cons x xs =>
      rcases List.prefix_cons_iff.mp h with h0 | ⟨t, ht, hpre⟩
      · cases h0
      · cases ht
        have hxs := ih (p := xs) (fun hin => hc (List.mem_cons_of_mem _ hin)) hpre
        exact List.prefix_cons_iff.mpr (Or.inr ⟨xs, rfl, hxs⟩)

/-- An infix of a concatenation around an element it does not contain is
an infix of one of the sides. -/
theorem infix_split_sep {p a b : List Char} {c : Char} (hc : c ∉ p)
    (h : p <:+: a ++ c :: b) : p <:+: a ∨ p <:+: b := by
  induction a generalizing p with
  | nil =>
    rcases List.infix_cons_iff.mp h with h0 | h0
    · cases p with
      | nil => exact Or.inl List.nil_infix
      | cons x xs =>
        rcases List.prefix_cons_iff.mp h0 with h1 | ⟨t, ht, _⟩
        · cases h1
        · cases ht
          exact absurd (List.mem_cons_self c xs) hc
    · exact Or.inr h0
  | cons y ys ih =>
    rcases List.infix_cons_iff.mp h with h0 | h0
    · exact Or.inl (prefix_before_sep hc h0).isInfix
    · rcases ih hc h0 with h1 | h1
      · exact Or.inl (List.infix_cons h1)
      · exact Or.inr h1

/-- Lowercasing maps the concatenation of stdout, a line feed and stderr
to the concatenation of the lowercased streams around a line feed. -/
theorem pyLower_combined (a b : String) :
    (pyLower (a ++ "\n" ++ b)).data =
      a.data.map Char.toLower ++ '\n' :: b.data.map Char.toLower := by
  show ((a ++ "\n" ++ b).data.map Char.toLower) = _
  rw [String.data_append, String.data_append]
  rw [show ("\n" : String).data = ['\n'] from rfl]
  simp

/-- A marker free of line feeds occurs in the lowercased combined stream
exactly when it occurs in one of the lowercased streams. -/
theorem pyIn_split (w a b : String) (hw : ('\n' : Char) ∉ w.data) :
    pyIn w (pyLower (a ++ "\n" ++ b)) = true ↔
      (pyIn w (pyLower a) = true ∨ pyIn w (pyLower b) = true) := by
  unfold pyIn
  rw [pyLower_combined]
  rw [show (pyLower a).data = a.data.map Char.toLower from rfl]
  rw [show (pyLower b).data = b.data.map Char.toLower from rfl]
  rw [pyInL_iff, pyInL_iff, pyInL_iff]
  constructor
  · intro h
    exact infix_split_sep hw h
  · intro h
    rcases h with h | h
    · rcases h with ⟨s, t, hst⟩
      exact ⟨s, t ++ '\n' :: b.data.map Char.toLower, by rw [← hst]; simp⟩
    · rcases h with ⟨s, t, hst⟩
      exact ⟨a.data.map Char.toLower ++ '\n' :: s, t, by rw [← hst]; simp⟩

/-- Each failure marker contains no line feed. -/
theorem markers_no_newline : ∀ w ∈ failure_markers, ('\n' : Char) ∉ w.data := by
  intro w hw
  simp only [failure_markers, List.mem_cons, List.not_mem_nil, or_false] at hw
  rcases hw with rfl | rfl | rfl | rfl <;> decide

/-- Claim C5: the success heuristic holds exactly when the exit code is
zero, stripped stdout is non-empty, and no case-insensitive failure
marker occurs in stdout or in stderr. -/
theorem C5_theorem (code : Int) (outText errText : String) :
    success_heuristic code outText errText = true ↔
      (code = 0 ∧ pyStrip outText ≠ "" ∧
       ∀ w ∈ failure_markers,
         pyIn w (pyLower outText) = false ∧ pyIn w (pyLower errText) = false) := by
  unfold success_heuristic
  simp only [Bool.and_eq_true, Bool.not_eq_true', beq_iff_eq, List.any_eq_false,
    Bool.not_eq_true, String.isEmpty_iff]
  have hempty : ((pyStrip outText).isEmpty = false) ↔ (pyStrip outText ≠ "") := by
    rw [Bool.eq_false_iff]
    exact not_congr (String.isEmpty_iff _)
  constructor
  · rintro ⟨⟨hcode, hmark⟩, hout⟩
    refine ⟨hcode, hempty.mp hout, ?_⟩
    intro w hw
    have hval := hmark w hw
    have hsplit := pyIn_split w outText errText (markers_no_newline w hw)
    constructor
    · rw [Bool.eq_false_iff]
      intro hcon
      rw [Bool.eq_false_iff] at hval
      exact hval (hsplit.mpr (Or.inl hcon))
    · rw [Bool.eq_false_iff]
      intro hcon
      rw [Bool.eq_false_iff] at hval
      exact hval (hsplit.mpr (Or.inr hcon))
  · rintro ⟨hcode, hout, hmark⟩
    refine ⟨⟨hcode, ?_⟩, hempty.mpr hout⟩
    intro w hw
    have hsplit := pyIn_split w outText errText (markers_no_newline w hw)
    rw [Bool.eq_false_iff]
    intro hcon
    rcases hsplit.mp hcon with h | h
    · rw [(hmark w hw).1] at h
      cases h
    · rw [(hmark w hw).2] at h
      cases h

/-- Claim C7, evaluated at the failing input (a template whose subprocess
exceeds the 20-second timeout): run_command raises TimeoutError, the
recorded attempt results carry success false and the TimeoutError text,
the failure is non-fatal — both templates are still processed and the
call returns without the error fallback — but the event trace of the call
holds a spawn with no exit and no kill, so one child process is still
running after the call returns: the source cancels only the communicate
read and never terminates the child. -/
theorem C7_theorem :
    run_command oracleT ghTemplate "tok123" = .error "TimeoutError" ∧
    run_command_events oracleT ghTemplate "tok123" = [ProcEvent.spawned] ∧
    processesLeft (run_command_events oracleT ghTemplate "tok123") = 1 ∧
    (_verify_secret_type oracleT "GitHub Token" [recW]).results.length = 2 ∧
    (∀ r ∈ (_verify_secret_type oracleT "GitHub Token" [recW]).results,
      r.success = false ∧ r.error = some "TimeoutError") ∧
    (_verify_secret_type oracleT "GitHub Token" [recW]).attempted = true ∧
    (_verify_secret_type oracleT "GitHub Token" [recW]).verified = false ∧
    (_verify_secret_type oracleT "GitHub Token" [recW]).error = none := by
  refine ⟨rfl, rfl, rfl, rfl, ?_, rfl, rfl, rfl⟩
  decide

/-- Claim C6, counterexample: with two buckets A and B where only the
Classify call for B fails, the whole build fails with that error — no
report is produced and the finding for A is lost too, refuting the claim
that only the one finding is skipped and the rest of the run completes. -/
theorem C6_counterexample :
    build_json_report oracleC6 [("A", [recW]), ("B", [recW])] = .error "classify boom" := by
  rfl

/-- Claim C6 (amended): a Classify failure for a secret-type bucket is not
absorbed: build_json_report has no handler around the classify call, so
the error propagates and the whole build fails with it, producing no
findings at all (the command-line driver catches, logs and re-raises). -/
theorem C6_theorem (O : Oracles) (stype : String) (evid : List EvidenceRecord)
    (rest : List (String × List EvidenceRecord)) (e : String)
    (hfail : O.classify stype = .error e) :
    build_json_report O ((stype, evid) :: rest) = .error e := by
  unfold build_json_report buildFindings
  rw [hfail]

/-- Witness for the amended claim C6 at a concrete input. -/
theorem C6_witness :
    build_json_report oracleC6b [("X", [recW])] = .error "boom" :=
  C6_theorem oracleC6b "X" [recW] [] "boom" rfl

theorem foldMax_init_le : ∀ (fs : List Finding) (ms : Nat), ms ≤ foldMax fs ms
  | [], _ => Nat.le_refl _
  | f :: fs, ms =>
    Nat.le_trans (Nat.le_max_left ms (severity_rank f.severity)) (foldMax_init_le fs _)

theorem foldMax_le_of_mem : ∀ (fs : List Finding) (ms : Nat) (f : Finding), f ∈ fs →
    severity_rank f.severity ≤ foldMax fs ms
  | [], _, _, hf => absurd hf (List.not_mem_nil _)
  | g :: fs, ms, f, hf => by
    rcases List.mem_cons.mp hf with rfl | hmem
    · exact Nat.le_trans (Nat.le_max_right ms (severity_rank f.severity)) (foldMax_init_le fs _)
    · exact foldMax_le_of_mem fs _ f hmem

theorem foldMax_attained : ∀ (fs : List Finding) (ms : Nat),
    foldMax fs ms = ms ∨ ∃ f ∈ fs, foldMax fs ms = severity_rank f.severity
  | [], _ => Or.inl rfl
  | f :: fs, ms => by
    have hstep : foldMax (f :: fs) ms = foldMax fs (Nat.max ms (severity_rank f.severity)) := rfl
    rcases foldMax_attained fs (Nat.max ms (severity_rank f.severity)) with h | ⟨g, hg, hge⟩
    · rw [hstep, h]
      rcases Nat.le_total (severity_rank f.severity) ms with hle | hle
      · exact Or.inl (max_eq_left hle)
      · exact Or.inr ⟨f, List.mem_cons_self f fs, max_eq_right hle⟩
    · rw [hstep]
      exact Or.inr ⟨g, List.mem_cons_of_mem f hg, hge⟩

/-- The final running maximum of buildFindings is the fold of the
severity ranks of the produced findings over the initial value. -/
theorem buildFindings_max (O : Oracles) :
    ∀ (secrets : List (String × List EvidenceRecord)) (ms : Nat)
      (fs : List Finding) (ms2 : Nat),
      buildFindings O secrets ms = .ok (fs, ms2) → ms2 = foldMax fs ms
  | [], ms, fs, ms2, h => by
    cases h
    rfl
  | (stype, evid) :: rest, ms, fs, ms2, h => by
    rw [show buildFindings O ((stype, evid) :: rest) ms =
        (match O.classify stype with
         | .error e => .error e
         | .ok (risk, desc) =>
           match O.remediate stype with
           | .error e => .error e
           | .ok steps =>
             match buildFindings O rest (Nat.max ms (severity_rank risk)) with
             | .error e => .error e
             | .ok (fs1, ms3) =>
               .ok (mkFinding O stype evid risk desc steps
                      (_verify_secret_type O stype evid) :: fs1, ms3)) from rfl] at h
    cases hc : O.classify stype with
    | error e =>
      rw [hc] at h
      simp only [] at h
      cases h
    | ok p =>
      obtain ⟨risk, desc⟩ := p
      rw [hc] at h
      simp only [] at h
      cases hr : O.remediate stype with
      | error e =>
        rw [hr] at h
        simp only [] at h
        cases h
      | ok steps =>
        rw [hr] at h
        simp only [] at h
        cases hb : buildFindings O rest (Nat.max ms (severity_rank risk)) with
        | error e =>
          rw [hb] at h
          simp only [] at h
          cases h
        | ok q =>
          obtain ⟨fs1, ms3⟩ := q
          rw [hb] at h
          simp only [] at h
          cases h
          exact buildFindings_max O rest _ fs1 _ hb

/-- Every finding's severity is a successful classification answer. -/
theorem buildFindings_severities (O : Oracles) :
    ∀ (secrets : List (String × List EvidenceRecord)) (ms : Nat)
      (fs : List Finding) (ms2 : Nat),
      buildFindings O secrets ms = .ok (fs, ms2) →
      ∀ f ∈ fs, ∃ stype d, O.classify stype = .ok (f.severity, d)
  | [], ms, fs, ms2, h => by
    cases h
    intro f hf
    exact absurd hf (List.not_mem_nil f)
  | (stype, evid) :: rest, ms, fs, ms2, h => by
    rw [show buildFindings O ((stype, evid) :: rest) ms =
        (match O.classify stype with
         | .error e => .error e
         | .ok (risk, desc) =>
           match O.remediate stype with
           | .error e => .error e
           | .ok steps =>
             match buildFindings O rest (Nat.max ms (severity_rank risk)) with
             | .error e => .error e
             | .ok (fs1, ms3) =>
               .ok (mkFinding O stype evid risk desc steps
                      (_verify_secret_type O stype evid) :: fs1, ms3)) from rfl] at h
    cases hc : O.classify stype with
    | error e =>
      rw [hc] at h
      simp only [] at h
      cases h
    | ok p =>
      obtain ⟨risk, desc⟩ := p
      rw [hc] at h
      simp only [] at h
      cases hr : O.remediate stype with
      | error e =>
        rw [hr] at h
        simp only [] at h
        cases h
      | ok steps =>
        rw [hr] at h
        simp only [] at h
        cases hb : buildFindings O rest (Nat.max ms (severity_rank risk)) with
        | error e =>
          rw [hb] at h
          simp only [] at h
          cases h
        | ok q =>
          obtain ⟨fs1, ms3⟩ := q
          rw [hb] at h
          simp only [] at h
          cases h
          intro f hf
          rcases List.mem_cons.mp hf with rfl | hmem
          · exact ⟨stype, desc, hc⟩
          · exact buildFindings_severities O rest _ fs1 _ hb f hmem

/-- On the five severity names the reverse rank lookup inverts the rank
table. -/
theorem rank_name_rank (s : String)
    (hs : s ∈ ["CRITICAL", "HIGH", "MEDIUM", "LOW", "INFO"]) :
    rank_name (severity_rank s) = s := by
  simp only [List.mem_cons, List.not_mem_nil, or_false] at hs
  rcases hs with rfl | rfl | rfl | rfl | rfl <;> rfl

/-- Claim C2: under the classification contract (the returned severity is
one of the five levels), the overall risk of a successfully built report
is the severity of a finding whose rank is maximal among the findings,
and INFO when there are no findings. -/
theorem C2_theorem (O : Oracles) (secrets : List (String × List EvidenceRecord)) (r : Report)
    (hok : build_json_report O secrets = .ok r)
    (hvalid : ∀ stype p, O.classify stype = .ok p →
      p.1 ∈ ["CRITICAL", "HIGH", "MEDIUM", "LOW", "INFO"]) :
    (r.findings = [] → r.overall_risk = "INFO") ∧
    (r.findings ≠ [] → ∃ f ∈ r.findings, f.severity = r.overall_risk ∧
      ∀ g ∈ r.findings, severity_rank g.severity ≤ severity_rank f.severity) := by
  unfold build_json_report at hok
  cases hb : buildFindings O secrets 0 with
  | error e =>
    rw [hb] at hok
    simp only [] at hok
    cases hok
  | ok q =>
    obtain ⟨fs, ms⟩ := q
    rw [hb] at hok
    simp only [] at hok
    cases hok
    have hperm : (sortFindings fs).Perm fs := List.perm_insertionSort findingGE fs
    have hms : ms = foldMax fs 0 := buildFindings_max O secrets 0 fs ms hb
    constructor
    · intro hemp
      have hsf : sortFindings fs = [] := hemp
      rw [hsf] at hperm
      have hfs : fs = [] := hperm.symm.eq_nil
      show (if fs.isEmpty then "INFO" else rank_name ms) = "INFO"
      rw [if_pos (by rw [List.isEmpty_iff]; exact hfs)]
    · intro hne
      have hfs : fs ≠ [] := by
        intro hcon
        exact hne (by simp [sortFindings, hcon])
      have hovr : (if fs.isEmpty then "INFO" else rank_name ms) = rank_name ms := by
        rw [if_neg (by rw [List.isEmpty_iff]; exact hfs)]
      rcases foldMax_attained fs 0 with h0 | ⟨f, hf, hattain⟩
      · rcases List.exists_mem_of_ne_nil fs hfs with ⟨f0, hf0⟩
        have hle := foldMax_le_of_mem fs 0 f0 hf0
        rw [h0] at hle
        have hzero : severity_rank f0.severity = 0 := Nat.le_zero.mp hle
        refine ⟨f0, hperm.mem_iff.mpr hf0, ?_, ?_⟩
        · rcases buildFindings_severities O secrets 0 fs ms hb f0 hf0 with ⟨st0, d0, hc0⟩
          have hname : rank_name (severity_rank f0.severity) = f0.severity :=
            rank_name_rank f0.severity (hvalid st0 (f0.severity, d0) hc0)
          rw [hzero] at hname
          show f0.severity = (if fs.isEmpty then "INFO" else rank_name ms)
          rw [hovr, hms, h0]
          exact hname.symm
        · intro g hg
          have hgm := foldMax_le_of_mem fs 0 g (hperm.mem_iff.mp hg)
          rw [h0] at hgm
          rw [hzero]
          exact hgm
      · refine ⟨f, hperm.mem_iff.mpr hf, ?_, ?_⟩
        · rcases buildFindings_severities O secrets 0 fs ms hb f hf with ⟨st0, d0, hc0⟩
          show f.severity = (if fs.isEmpty then "INFO" else rank_name ms)
          rw [hovr, hms, hattain]
          exact (rank_name_rank f.severity (hvalid st0 (f.severity, d0) hc0)).symm
        · intro g hg
          have hgm := foldMax_le_of_mem fs 0 g (hperm.mem_iff.mp hg)
          rw [hattain] at hgm
          exact hgm

/-- Inserting a finding into a sorted-so-far list commutes with filtering
by an exact rank: the insertion point lies before every element of equal
or smaller rank, so the filtered sequence gains the new element in front
when it has the filtered rank and is unchanged otherwise. -/
theorem filter_orderedInsert (k : Nat) (x : Finding) :
    ∀ l : List Finding,
      (List.orderedInsert findingGE x l).filter (fun f => severity_rank f.severity == k) =
        if severity_rank x.severity == k
        then x :: l.filter (fun f => severity_rank f.severity == k)
        else l.filter (fun f => severity_rank f.severity == k)
  | [] => by
    rw [List.orderedInsert]
    cases hx : (severity_rank x.severity == k) with
    | true => simp [List.filter, hx]
    | false => simp [List.filter, hx]
  | y :: ys => by
    rw [List.orderedInsert]
    by_cases hxy : findingGE x y
    · rw [if_pos hxy]
      cases hx : (severity_rank x.severity == k) with
      | true => simp [List.filter, hx]
      | false => simp [List.filter, hx]
    · rw [if_neg hxy]
      have hlt : severity_rank x.severity < severity_rank y.severity :=
        Nat.lt_of_not_le hxy
      cases hx : (severity_rank x.severity == k) with
      | true =>
        have hy : (severity_rank y.severity == k) = false := by
          rw [beq_iff_eq] at hx
          rw [beq_eq_false_iff_ne]
          omega
        rw [if_pos rfl]
        rw [List.filter_cons_of_neg (by simp [hy])]
        rw [List.filter_cons_of_neg (by simp [hy])]
        rw [filter_orderedInsert k x ys, if_pos hx]
      | false =>
        rw [if_neg (by simp [hx])]
        cases hy : (severity_rank y.severity == k) with
        | true =>
          rw [List.filter_cons_of_pos (by simp [hy])]
          rw [List.filter_cons_of_pos (by simp [hy])]
          rw [filter_orderedInsert k x ys, if_neg (by simp [hx])]
        | false =>
          rw [List.filter_cons_of_neg (by simp [hy])]
          rw [List.filter_cons_of_neg (by simp [hy])]
          rw [filter_orderedInsert k x ys, if_neg (by simp [hx])]

/-- The stable descending sort preserves each equal-rank subsequence. -/
theorem filter_sortFindings (k : Nat) :
    ∀ fs : List Finding,
      (sortFindings fs).filter (fun f => severity_rank f.severity == k) =
        fs.filter (fun f => severity_rank f.severity == k)
  | [] => rfl
  | f :: fs => by
    show ((List.insertionSort findingGE (f :: fs)).filter _) = _
    rw [List.insertionSort, filter_orderedInsert k f (List.insertionSort findingGE fs)]
    cases hf : (severity_rank f.severity == k) with
    | true =>
      rw [if_pos rfl]
      rw [show List.insertionSort findingGE fs = sortFindings fs from rfl,
        filter_sortFindings k fs]
      rw [List.filter_cons_of_pos (by simp [hf])]
    | false =>
      rw [if_neg (by simp [hf])]
      rw [show List.insertionSort findingGE fs = sortFindings fs from rfl,
        filter_sortFindings k fs]
      rw [List.filter_cons_of_neg (by simp [hf])]

/-- Claim C4: the findings of every successfully built report are sorted
in descending severity rank, and the sort is stable: for every rank, the
subsequence of findings of that rank is exactly the subsequence of the
findings in bucket construction order. -/
theorem C4_theorem (O : Oracles) (secrets : List (String × List EvidenceRecord)) (r : Report)
    (hok : build_json_report O secrets = .ok r) :
    r.findings.Pairwise (fun a b => severity_rank b.severity ≤ severity_rank a.severity) ∧
    ∃ fs ms, buildFindings O secrets 0 = .ok (fs, ms) ∧
      ∀ k, r.findings.filter (fun f => severity_rank f.severity == k) =
        fs.filter (fun f => severity_rank f.severity == k) := by
  unfold build_json_report at hok
  cases hb : buildFindings O secrets 0 with
  | error e =>
    rw [hb] at hok
    simp only [] at hok
    cases hok
  | ok q =>
    obtain ⟨fs, ms⟩ := q
    rw [hb] at hok
    simp only [] at hok
    cases hok
    constructor
    · exact List.sorted_insertionSort findingGE fs
    · exact ⟨fs, ms, rfl, fun k => filter_sortFindings k fs⟩

/-- Witness for claim C2 at a concrete input. -/
theorem C2_witness :
    ((reportOf (build_json_report oracleW [("A", [recW])])).findings = [] →
      (reportOf (build_json_report oracleW [("A", [recW])])).overall_risk = "INFO") ∧
    ((reportOf (build_json_report oracleW [("A", [recW])])).findings ≠ [] →
      ∃ f ∈ (reportOf (build_json_report oracleW [("A", [recW])])).findings,
        f.severity = (reportOf (build_json_report oracleW [("A", [recW])])).overall_risk ∧
        ∀ g ∈ (reportOf (build_json_report oracleW [("A", [recW])])).findings,
          severity_rank g.severity ≤ severity_rank f.severity) :=
  C2_theorem oracleW [("A", [recW])] (reportOf (build_json_report oracleW [("A", [recW])]))
    rfl
    (fun stype p h => by
      cases h
      simp)

/-- Witness for claim C4 at a concrete input. -/
theorem C4_witness :
    (reportOf (build_json_report oracleW [("A", [recW])])).findings.Pairwise
      (fun a b => severity_rank b.severity ≤ severity_rank a.severity) ∧
    ∃ fs ms, buildFindings oracleW [("A", [recW])] 0 = .ok (fs, ms) ∧
      ∀ k, (reportOf (build_json_report oracleW [("A", [recW])])).findings.filter
            (fun f => severity_rank f.severity == k) =
          fs.filter (fun f => severity_rank f.severity == k) :=
  C4_theorem oracleW [("A", [recW])] (reportOf (build_json_report oracleW [("A", [recW])])) rfl

/-- bucketAppend keeps every bucket non-empty. -/
theorem bucketAppend_nonempty (bs : List (String × List EvidenceRecord)) (k : String)
    (r : EvidenceRecord) (h : ∀ p ∈ bs, p.2 ≠ []) :
    ∀ p ∈ bucketAppend bs k r, p.2 ≠ [] := by
  unfold bucketAppend
  split_ifs with hk
  · intro p hp
    rcases List.mem_map.mp hp with ⟨q, hq, hfq⟩
    by_cases hqk : (q.1 == k) = true
    · rw [if_pos hqk] at hfq
      rw [← hfq]
      simp
    · rw [if_neg hqk] at hfq
      rw [← hfq]
      exact h q hq
  · intro p hp
    rcases List.mem_append.mp hp with hold | hnew
    · exact h p hold
    · rcases List.mem_singleton.mp hnew with rfl
      simp

/-- The line fold of the parser keeps every bucket non-empty. -/
theorem parse_fold_nonempty :
    ∀ (lines : List (List Char)) (st : List Char × List (String × List EvidenceRecord)),
      (∀ p ∈ st.2, p.2 ≠ []) →
      ∀ p ∈ (lines.foldl parseStep st).2, p.2 ≠ []
  | [], _, h => h
  | raw :: rest, st, h => by
    simp only [List.foldl_cons]
    refine parse_fold_nonempty rest (parseStep st raw) ?_
    unfold parseStep
    split_ifs with hu
    · exact h
    · cases hs : splitFirst ("->".data) (pyStripL raw) with
      | none => exact h
      | some pr => exact bucketAppend_nonempty st.2 _ _ h

/-- Every bucket produced by the evidence parser holds at least one
record; the verifier is therefore only ever invoked with a non-empty
evidence list in the pipeline. -/
theorem parse_buckets_nonempty (dump : String) :
    ∀ p ∈ parse_secret_file dump, p.2 ≠ [] := by
  unfold parse_secret_file
  exact parse_fold_nonempty (pySplit ['\n'] dump.data) ("Unknown".data, [])
    (fun p hp => absurd hp (List.not_mem_nil p))

end CredentialShield
